import Mathlib

/-!
Verification of the asynchronous request/response correlation layer of a Go
database client (package `voltdbclient`, file `conn.go`).

The development shallowly embeds the Go source:

* `VoltQueryResult` with its `setError`/`setRows` mutators models the pending
  query slot; the implementation file for `VoltQueryResult` is not part of the
  sources at hand, so its behavior is modelled from the specification where it
  matters (registry removal on consumption) and marked as such.
* `VoltConn.DrainAll` is modelled as a deterministic function of the
  nondeterministic inputs of the real loop: the snapshot (map-iteration) order
  of the registry, the outcome delivered on each query channel, and the choice
  `reflect.Select` makes at each iteration.  The state also carries an event
  log of the `setError`/`setRows` calls made and a count of the
  `reflect.Select` invocations, so that operational claims about the loop are
  expressible.
* `VoltConn.Close`, `VoltConn.Prepare` and `OpenConn` are embedded together
  with Go's value-receiver call semantics: a method with a value receiver
  mutates a copy of the receiver, invisible to the caller.
-/

/-- Error values (`error` in Go); only the message matters here. -/
abbrev GoErr := String

/-- Opaque model of a `driver.Rows` payload; only identity matters. -/
abbrev Rows := Nat

/-- The values returned by a successful login (`connectionData` in conn.go). -/
structure connectionData where
  hostId : Int
  connId : Int
  leaderAddr : Int
  buildString : String
  deriving Repr, DecidableEq

/-- Model of a value received from a query channel through `reflect.Select`:
`kindIsInterface` is whether `val.Kind() == reflect.Interface`, and
`rowsPayload` is `some r` exactly when the type assertion
`val.Interface().(driver.Rows)` succeeds with payload `r`. -/
structure SelVal where
  kindIsInterface : Bool
  rowsPayload : Option Rows
  deriving Repr, DecidableEq

/-- Outcome observed on one query channel by `reflect.Select`: either the
channel was closed without a value (`ok == false`), or a value was
delivered. -/
inductive Delivery where
  | closed : Delivery
  | delivered : SelVal → Delivery
  deriving Repr, DecidableEq

/-- The pending query slot (`VoltQueryResult`): its handle plus the mutable
state `{result: rows-or-nil, error: error-or-nil}`.  The channel itself is
modelled by the `Delivery` assigned to the handle. -/
structure VoltQueryResult where
  han : Int
  rows : Option Rows
  err : Option GoErr
  deriving Repr, DecidableEq

/-- `setError` on a pending query: stores the error. -/
def VoltQueryResult.setError (q : VoltQueryResult) (e : GoErr) : VoltQueryResult :=
  { q with err := some e }

/-- `setRows` on a pending query: stores the (possibly nil) rows value. -/
def VoltQueryResult.setRows (q : VoltQueryResult) (r : Option Rows) : VoltQueryResult :=
  { q with rows := r }

/-- One mutator call applied to a pending query, for the event log. -/
inductive SetEvent where
  | setErrorEv : GoErr → SetEvent
  | setRowsEv : Option Rows → SetEvent
  deriving Repr, DecidableEq

/-- The query registry `queries map[int64]*VoltQueryResult`, as an association
list with the unique-key discipline of a Go map. -/
abbrev QueryMap := List (Int × VoltQueryResult)

/-- Go map read `m[handle]` on the query registry. -/
def lookupQuery : QueryMap → Int → Option VoltQueryResult
  | [], _ => none
  | p :: rest, h => if p.1 = h then some p.2 else lookupQuery rest h

/-- `removeQuery` (conn.go): `delete(vc.queries, han)`. -/
def removeQuery (m : QueryMap) (han : Int) : QueryMap :=
  m.filter fun p => p.1 ≠ han

/-- `registerQuery` (conn.go): `vc.queries[handle] = vcr`; a Go map insert
overwrites any previous entry for the key. -/
def registerQuery (m : QueryMap) (handle : Int) (vcr : VoltQueryResult) : QueryMap :=
  (handle, vcr) :: removeQuery m handle

/-- Processing of one selected delivery in `DrainAll` (conn.go lines 129-146):
the branch on `ok`, the `reflect.Interface` kind check, and the
`driver.Rows` type assertion.  Returns the updated query together with the
list of `setError`/`setRows` calls the source makes on it, in order.  Note
that in the failed-type-assertion branch the source calls `setError` and then
also `setRows(rows)` with `rows` the zero value (nil): there is no `else`
before `chosenQuery.setRows(rows)`. -/
def finalizeQuery (d : Delivery) (q : VoltQueryResult) : VoltQueryResult × List SetEvent :=
  match d with
  | .closed =>
      (q.setError "Result was not available, channel was closed",
       [.setErrorEv "Result was not available, channel was closed"])
  | .delivered v =>
      if v.kindIsInterface then
        match v.rowsPayload with
        | some rows => (q.setRows (some rows), [.setRowsEv (some rows)])
        | none =>
            ((q.setError "unexpected return type, not driver.Rows").setRows none,
             [.setErrorEv "unexpected return type, not driver.Rows", .setRowsEv none])
      else
        (q.setError "unexpected return type, not an interface",
         [.setErrorEv "unexpected return type, not an interface"])

/-- The swap-with-last removal idiom of `DrainAll`:
`handles[chosen] = handles[len(handles)-1]; handles = handles[:len(handles)-1]`. -/
def swapRemove (l : List Int) (i : Nat) : List Int :=
  match l.getLast? with
  | none => []
  | some last => (l.set i last).dropLast

/-- State of one `DrainAll` call: the wait set `handles` (the `cases` slice is
kept aligned with it by the identical swap-removal, so it is determined by
`handles` and the per-handle delivery outcomes), the live query registry, the
accumulated `finishedQueries`, plus instrumentation: the log of mutator calls
made on pending queries and the number of `reflect.Select` invocations. -/
structure DrainSt where
  handles : List Int
  queries : QueryMap
  finished : List VoltQueryResult
  events : List (Int × SetEvent)
  selections : Nat
  deriving Repr, DecidableEq

/-- One iteration of the `DrainAll` loop, given which still-waiting index
`reflect.Select` chose.  `deliv` gives the outcome pending on each handle's
channel.  The removal of the consumed handle from the registry is the effect,
modelled from the spec, of the `setError`/`setRows` calls of `finalizeQuery`:
the spec states that registry entries are removed once consumed (the
`VoltQueryResult` implementation, which calls `removeQuery`, is not among the
sources at hand). -/
def drainStep (deliv : Int → Delivery) (chosen : Nat) (st : DrainSt) : DrainSt :=
  let handle := st.handles.getD chosen 0
  let chosenQuery := (lookupQuery st.queries handle).getD
    { han := handle, rows := none, err := none }
  let fin := finalizeQuery (deliv handle) chosenQuery
  { handles := swapRemove st.handles chosen
    queries := removeQuery st.queries handle
    finished := st.finished ++ [fin.1]
    events := st.events ++ fin.2.map fun e => (handle, e)
    selections := st.selections + 1 }

/-- The `for len(handles) > 0` loop of `DrainAll`.  `sched k` determines
(modulo the current size of the wait set) which ready channel the k-th
`reflect.Select` call picks; ranging over all `sched` covers every possible
completion order.  The fuel is the initial number of handles; the loop runs
exactly that many iterations. -/
def drainGo (deliv : Int → Delivery) (sched : Nat → Nat) : Nat → Nat → DrainSt → DrainSt
  | 0, _, st => st
  | fuel + 1, k, st =>
      if st.handles.isEmpty then st
      else drainGo deliv sched fuel (k + 1)
        (drainStep deliv (sched k % st.handles.length) st)

/-- `VoltConn.DrainAll` (conn.go lines 105-149).  `queries` is the registry at
call time, `snap` the order in which the Go map range delivered its keys into
the `handles` slice (any permutation of the keys), `deliv` the outcome pending
on each handle's channel, and `sched` the selection order. -/
def DrainAll (queries : QueryMap) (snap : List Int) (deliv : Int → Delivery)
    (sched : Nat → Nat) : DrainSt :=
  drainGo deliv sched snap.length 0
    { handles := snap, queries := queries, finished := [], events := [], selections := 0 }

/-- An `io.Reader` value stored in `VoltConn.reader`: either a `*net.TCPConn`
or some other reader (`newVoltConn` accepts any `io.Reader`). -/
inductive Reader where
  | tcpConn : Reader
  | other : Reader
  deriving Repr, DecidableEq

/-- The value-typed fields of `VoltConn`.  The `execs`/`queries` maps and the
`netListener` pointer are reference types in Go — copies of the struct share
them — so they are modelled separately (`QueryMap` above); the fields here are
the ones a struct copy duplicates.  `none` models a nil interface field. -/
structure VoltConn where
  reader : Option Reader
  writer : Option Unit
  connData : Option connectionData
  isOpen : Bool
  deriving Repr, DecidableEq

/-- `newVoltConn` (conn.go): stores the endpoints, creates fresh registries,
starts the listener (both reference-typed, modelled outside this structure)
and marks the connection open. -/
def newVoltConn (reader : Option Reader) (writer : Option Unit)
    (connData : Option connectionData) : VoltConn :=
  { reader := reader, writer := writer, connData := connData, isOpen := true }

/-- State of the underlying TCP connection: how many times `Close` has been
invoked on it. -/
structure TcpState where
  closeCalls : Nat
  deriving Repr, DecidableEq

/-- Model of the Go standard library `net.TCPConn.Close`: the first call
succeeds; a later call returns an error ("use of closed network connection")
but never panics. -/
def tcpClose (s : TcpState) : Option GoErr × TcpState :=
  (if s.closeCalls = 0 then none else some "use of closed network connection",
   { closeCalls := s.closeCalls + 1 })

/-- Result of one execution of `VoltConn.Close`: either a run-time panic (from
the unchecked type assertion `vc.reader.(*net.TCPConn)`), or a normal return
carrying the returned error, the post-state of the receiver copy, and the
post-state of the TCP connection. -/
inductive CloseResult where
  | panicked : CloseResult
  | returned : Option GoErr → VoltConn → TcpState → CloseResult
  deriving Repr, DecidableEq

/-- `VoltConn.Close` (conn.go lines 63-73): if `reader` is non-nil it is
downcast, unchecked, to `*net.TCPConn` and closed; then the receiver's fields
are cleared and `isOpen` set to false.  The receiver is a value receiver, so
the returned `VoltConn` is the mutated copy. -/
def VoltConn.Close (vc : VoltConn) (tcp : TcpState) : CloseResult :=
  match vc.reader with
  | some .tcpConn =>
      let r := tcpClose tcp
      .returned r.1
        { vc with reader := none, writer := none, connData := none, isOpen := false } r.2
  | some .other => .panicked
  | none =>
      .returned none
        { vc with reader := none, writer := none, connData := none, isOpen := false } tcp

/-- A call site `vc.Close()` under Go semantics: `Close` has a value receiver,
so it operates on a copy; the caller's variable is unchanged afterwards.  The
second component is the caller's view of the connection after the call. -/
def closeCall (vc : VoltConn) (tcp : TcpState) : CloseResult × VoltConn :=
  (vc.Close tcp, vc)

/-- A prepared statement handle.  Modelled from the spec: `newVoltStatement`
(the statement-builder, not among the sources at hand) is delegated the
construction and needs the writer endpoint and the listener; only the
statement text is relevant to the claims here. -/
structure VoltStatement where
  query : String
  deriving Repr, DecidableEq

/-- Modelled from the spec: `newVoltStatement`, the external statement-builder
collaborator. -/
def newVoltStatement (query : String) : VoltStatement :=
  { query := query }

/-- `VoltConn.Prepare` (conn.go lines 97-103): fails when the connection is
not open, otherwise returns a statement.  It reads and writes neither of the
registries. -/
def VoltConn.Prepare (vc : VoltConn) (query : String) : Except GoErr VoltStatement :=
  if vc.isOpen = false then .error "Connection is closed"
  else .ok (newVoltStatement query)

/-- `VoltConn.Begin` (conn.go): transactions are unsupported. -/
def VoltConn.Begin (_vc : VoltConn) : Except GoErr Unit :=
  .error "VoltDB does not support transactions, VoltDB autocommits"

/-- Outcomes of the external steps `OpenConn` performs, in order:
`net.ResolveTCPAddr`, `net.DialTCP`, `serializeLoginMessage`,
`writeLoginMessage` (whose result, if any, the source ignores), and
`readLoginResponse` on the resulting stream. -/
structure OpenEnv where
  resolveOk : Bool
  dialErr : Option GoErr
  serializeErr : Option GoErr
  writeOk : Bool
  readResp : Except GoErr connectionData
  deriving Repr

/-- Whether a login-response read outcome succeeded. -/
def readRespOk : Except GoErr connectionData → Bool
  | .ok _ => true
  | .error _ => false

/-- Modelled from the spec: `writeLoginMessage`/`readLoginResponse` are not
among the sources at hand; per the spec the handshake cannot complete when the
login frame write fails, so in any well-formed environment a failed login
write makes the subsequent login-response read fail. -/
abbrev OpenEnvWf (env : OpenEnv) : Prop :=
  env.writeOk = false → readRespOk env.readResp = false

/-- `OpenConn` (conn.go lines 75-95): resolve, dial, serialize and send the
login message (the write's outcome is not checked at the call site), read the
login response, and only then construct an open connection. -/
def OpenConn (connInfo : String) (env : OpenEnv) : Except GoErr VoltConn :=
  if env.resolveOk = false then
    .error ("Error resolving " ++ connInfo ++ ".")
  else
    match env.dialErr with
    | some e => .error e
    | none =>
        match env.serializeErr with
        | some e => .error e
        | none =>
            match env.readResp with
            | .error e => .error e
            | .ok connData => .ok (newVoltConn (some .tcpConn) (some ()) (some connData))

/-! ### List helper lemmas -/

/-- Replacing the element at a valid index and re-consing the old value is a
permutation of consing the new value. -/
theorem cons_get_set_perm {α : Type} (b : α) :
    ∀ (l : List α) (i : Nat) (h : i < l.length),
      List.Perm (l.get ⟨i, h⟩ :: l.set i b) (b :: l)
  | _ :: l, 0, _ => List.Perm.swap b _ l
  | a :: l, i + 1, h => by
    have ih := cons_get_set_perm b l i (Nat.lt_of_succ_lt_succ h)
    simpa using ((List.Perm.swap a _ _).trans (ih.cons a)).trans (List.Perm.swap _ a l)

/-- Setting any valid index to the last element leaves the last element in
place. -/
theorem getLastQ_set_last {α : Type} (l : List α) (hne : l ≠ []) (i : Nat)
    (hi : i < l.length) :
    (l.set i (l.getLast hne)).getLast? = some (l.getLast hne) := by
  rw [List.getLast?_eq_getElem?, List.length_set]
  by_cases hcase : i = l.length - 1
  · subst hcase
    exact List.getElem?_set_self (by omega)
  · rw [List.getElem?_set_ne hcase, ← List.getLast?_eq_getElem?,
      List.getLast?_eq_getLast l hne]

theorem swapRemove_length (l : List Int) (hne : l ≠ []) (i : Nat) :
    (swapRemove l i).length = l.length - 1 := by
  unfold swapRemove
  rw [List.getLast?_eq_getLast l hne]
  simp

/-- Swap-with-last removal at a valid index removes exactly the element at
that index, up to permutation. -/
theorem swapRemove_perm (l : List Int) (i : Nat) (h : i < l.length) :
    List.Perm (l.get ⟨i, h⟩ :: swapRemove l i) l := by
  have hne : l ≠ [] := List.ne_nil_of_length_pos (Nat.lt_of_le_of_lt (Nat.zero_le i) h)
  set gl := l.getLast hne with hgl
  have hset_ne : l.set i gl ≠ [] := by
    have : (l.set i gl).length = l.length := l.length_set ..
    exact List.ne_nil_of_length_pos (by omega)
  have hdef : swapRemove l i = (l.set i gl).dropLast := by
    unfold swapRemove
    rw [List.getLast?_eq_getLast l hne]
  have hlastq : (l.set i gl).getLast hset_ne = gl := by
    have h1 := List.getLast?_eq_getLast (l.set i gl) hset_ne
    have h2 := getLastQ_set_last l hne i h
    rw [h1] at h2
    injection h2
  have hsplit : (l.set i gl).dropLast ++ [gl] = l.set i gl := by
    have := List.dropLast_concat_getLast hset_ne
    rwa [hlastq] at this
  have h1 : List.Perm (l.get ⟨i, h⟩ :: l.set i gl) (gl :: l) := cons_get_set_perm gl l i h
  have h2 : List.Perm ((l.get ⟨i, h⟩ :: (l.set i gl).dropLast) ++ [gl]) (l ++ [gl]) := by
    have hcons : (l.get ⟨i, h⟩ :: (l.set i gl).dropLast) ++ [gl]
        = l.get ⟨i, h⟩ :: l.set i gl := by
      simp only [List.cons_append, hsplit]
    rw [hcons]
    exact h1.trans (List.perm_append_singleton gl l).symm
  rw [hdef]
  exact (List.perm_append_right_iff [gl]).mp h2

/-! ### Lookup and removal lemmas for the query registry -/

theorem lookupQuery_mem {m : QueryMap} {h : Int} {v : VoltQueryResult}
    (hl : lookupQuery m h = some v) : (h, v) ∈ m := by
  induction m with
  | nil => simp [lookupQuery] at hl
  | cons p rest ih =>
    obtain ⟨a, b⟩ := p
    rw [show lookupQuery ((a, b) :: rest) h
      = if a = h then some b else lookupQuery rest h from rfl] at hl
    by_cases hp : a = h
    · rw [if_pos hp] at hl
      injection hl with hb
      subst hb
      subst hp
      exact List.mem_cons_self _ _
    · rw [if_neg hp] at hl
      exact List.mem_cons_of_mem _ (ih hl)

theorem lookupQuery_isSome_of_mem_keys {m : QueryMap} {h : Int}
    (hmem : h ∈ m.map Prod.fst) : (lookupQuery m h).isSome := by
  induction m with
  | nil => simp at hmem
  | cons p rest ih =>
    by_cases hp : p.1 = h
    · simp [lookupQuery, hp]
    · simp only [List.map_cons, List.mem_cons] at hmem
      rcases hmem with heq | hmem
      · exact absurd heq.symm hp
      · simp only [lookupQuery, hp, if_false]
        exact ih hmem

theorem lookupQuery_removeQuery (m : QueryMap) (a h : Int) :
    lookupQuery (removeQuery m a) h = if h = a then none else lookupQuery m h := by
  induction m with
  | nil => simp [removeQuery, lookupQuery]
  | cons p rest ih =>
    obtain ⟨x, b⟩ := p
    by_cases hxa : x = a
    · have hfilter : removeQuery ((x, b) :: rest) a = removeQuery rest a := by
        simp [removeQuery, List.filter_cons, hxa]
      rw [hfilter, ih]
      by_cases hha : h = a
      · simp [hha]
      · have hxh : ¬x = h := fun hc => hha (by rw [← hc, hxa])
        simp [lookupQuery, hxh, hha]
    · have hfilter : removeQuery ((x, b) :: rest) a = (x, b) :: removeQuery rest a := by
        simp [removeQuery, List.filter_cons, hxa]
      rw [hfilter]
      by_cases hxh : x = h
      · have hha : ¬h = a := fun hc => hxa (by rw [hxh, hc])
        simp [lookupQuery, hxh, hha]
      · simp [lookupQuery, hxh, ih]

theorem removeQuery_subset {m : QueryMap} {a : Int} {p : Int × VoltQueryResult}
    (hp : p ∈ removeQuery m a) : p ∈ m :=
  List.mem_of_mem_filter hp

/-! ### Facts about finalizeQuery -/

theorem finalizeQuery_han (d : Delivery) (q : VoltQueryResult) :
    (finalizeQuery d q).1.han = q.han := by
  cases d with
  | closed => rfl
  | delivered v =>
    by_cases hk : v.kindIsInterface
    · cases hv : v.rowsPayload with
      | none => simp [finalizeQuery, hk, hv, VoltQueryResult.setError, VoltQueryResult.setRows]
      | some r => simp [finalizeQuery, hk, hv, VoltQueryResult.setRows]
    · simp [finalizeQuery, hk, VoltQueryResult.setError]

/-- Every finalized query carries a result or an error. -/
theorem finalizeQuery_sets_one (d : Delivery) (q : VoltQueryResult) :
    ((finalizeQuery d q).1.err).isSome ∨ ((finalizeQuery d q).1.rows).isSome := by
  cases d with
  | closed => left; rfl
  | delivered v =>
    by_cases hk : v.kindIsInterface
    · cases hv : v.rowsPayload with
      | none =>
        left
        simp [finalizeQuery, hk, hv, VoltQueryResult.setError, VoltQueryResult.setRows]
      | some r =>
        right
        simp [finalizeQuery, hk, hv, VoltQueryResult.setRows]
    · left; simp [finalizeQuery, hk, VoltQueryResult.setError]

/-! ### The DrainAll loop invariant -/

/-- Invariant of the `DrainAll` loop relating the current state to the
registry `queries0` and the snapshot `snap` taken at call time:
the wait set plus the finished handles partition the snapshot; registry
lookups of waiting handles are unchanged; every finished query is the
finalization of its original registry entry under its own delivery; finished
handles are gone from the registry; and registry values carry their key as
handle. -/
structure DrainInv (queries0 : QueryMap) (snap : List Int) (deliv : Int → Delivery)
    (st : DrainSt) : Prop where
  perm : List.Perm (st.handles ++ st.finished.map VoltQueryResult.han) snap
  regsub : ∀ h ∈ st.handles, lookupQuery st.queries h = lookupQuery queries0 h
  fin : ∀ q ∈ st.finished, ∃ q0, lookupQuery queries0 q.han = some q0 ∧
    q = (finalizeQuery (deliv q.han) q0).1
  gone : ∀ q ∈ st.finished, lookupQuery st.queries q.han = none
  hans : ∀ p ∈ st.queries, p.2.han = p.1

theorem drainInv_step (queries0 : QueryMap) (snap : List Int) (deliv : Int → Delivery)
    (hsnap : List.Perm snap (queries0.map Prod.fst))
    (hnodup : (queries0.map Prod.fst).Nodup)
    (st : DrainSt) (inv : DrainInv queries0 snap deliv st)
    (chosen : Nat) (hc : chosen < st.handles.length) :
    DrainInv queries0 snap deliv (drainStep deliv chosen st) ∧
      (drainStep deliv chosen st).handles.length = st.handles.length - 1 := by
  have hne : st.handles ≠ [] :=
    List.ne_nil_of_length_pos (Nat.lt_of_le_of_lt (Nat.zero_le _) hc)
  set handle := st.handles.get ⟨chosen, hc⟩ with hhandle
  have hgetD : st.handles.getD chosen 0 = handle := List.getD_eq_getElem st.handles 0 hc
  have hperm_hs : List.Perm (handle :: swapRemove st.handles chosen) st.handles :=
    swapRemove_perm st.handles chosen hc
  have hmem : handle ∈ st.handles := st.handles.get_mem chosen hc
  have hsnapnodup : snap.Nodup := hsnap.symm.nodup hnodup
  have happnodup : (st.handles ++ st.finished.map VoltQueryResult.han).Nodup :=
    inv.perm.symm.nodup hsnapnodup
  have hhnodup : st.handles.Nodup := happnodup.of_append_left
  have hnotmem : handle ∉ swapRemove st.handles chosen := by
    have hcons : (handle :: swapRemove st.handles chosen).Nodup :=
      hperm_hs.symm.nodup hhnodup
    exact (List.nodup_cons.mp hcons).1
  have hmemsnap : handle ∈ snap := inv.perm.mem_iff.mp (List.mem_append_left _ hmem)
  have hmemkeys : handle ∈ queries0.map Prod.fst := hsnap.mem_iff.mp hmemsnap
  obtain ⟨q0, hq0⟩ : ∃ q0, lookupQuery queries0 handle = some q0 :=
    Option.isSome_iff_exists.mp (lookupQuery_isSome_of_mem_keys hmemkeys)
  have hlookupst : lookupQuery st.queries handle = some q0 := by
    rw [inv.regsub handle hmem]; exact hq0
  have hq0han : q0.han = handle := inv.hans (handle, q0) (lookupQuery_mem hlookupst)
  have hchosen : (lookupQuery st.queries handle).getD
      { han := handle, rows := none, err := none } = q0 := by
    rw [hlookupst]; rfl
  have hstep : drainStep deliv chosen st =
      { handles := swapRemove st.handles chosen
        queries := removeQuery st.queries handle
        finished := st.finished ++ [(finalizeQuery (deliv handle) q0).1]
        events := st.events ++ ((finalizeQuery (deliv handle) q0).2.map fun e => (handle, e))
        selections := st.selections + 1 } := by
    simp only [drainStep]
    rw [hgetD, hchosen]
  have hq1han : (finalizeQuery (deliv handle) q0).1.han = handle := by
    rw [finalizeQuery_han, hq0han]
  constructor
  · constructor
    · -- perm
      rw [hstep]
      have hmap : (st.finished ++ [(finalizeQuery (deliv handle) q0).1]).map
          VoltQueryResult.han = st.finished.map VoltQueryResult.han ++ [handle] := by
        rw [List.map_append, List.map_cons, List.map_nil, hq1han]
      simp only [hmap]
      have h1 : List.Perm
          (swapRemove st.handles chosen ++ (st.finished.map VoltQueryResult.han ++ [handle]))
          ((handle :: swapRemove st.handles chosen) ++ st.finished.map VoltQueryResult.han) := by
        rw [← List.append_assoc]
        exact (List.perm_append_singleton handle _)
      exact h1.trans ((hperm_hs.append_right _).trans inv.perm)
    · -- regsub
      rw [hstep]
      intro h hh
      have hhmem : h ∈ st.handles := hperm_hs.mem_iff.mp (List.mem_cons_of_mem _ hh)
      have hhne : ¬h = handle := fun hc2 => hnotmem (hc2 ▸ hh)
      rw [lookupQuery_removeQuery, if_neg hhne]
      exact inv.regsub h hhmem
    · -- fin
      rw [hstep]
      intro q hq
      rcases List.mem_append.mp hq with hq | hq
      · exact inv.fin q hq
      · rcases List.mem_singleton.mp hq with rfl
        exact ⟨q0, by rw [hq1han]; exact hq0, by rw [hq1han]⟩
    · -- gone
      rw [hstep]
      intro q hq
      rw [lookupQuery_removeQuery]
      rcases List.mem_append.mp hq with hq | hq
      · by_cases hqh : q.han = handle
        · rw [if_pos hqh]
        · rw [if_neg hqh]; exact inv.gone q hq
      · rcases List.mem_singleton.mp hq with rfl
        rw [if_pos hq1han]
    · -- hans
      rw [hstep]
      intro p hp
      exact inv.hans p (removeQuery_subset hp)
  · rw [show (drainStep deliv chosen st).handles = swapRemove st.handles chosen from by
      rw [hstep]]
    exact swapRemove_length st.handles hne chosen

theorem drainInv_go (queries0 : QueryMap) (snap : List Int) (deliv : Int → Delivery)
    (sched : Nat → Nat)
    (hsnap : List.Perm snap (queries0.map Prod.fst))
    (hnodup : (queries0.map Prod.fst).Nodup) :
    ∀ (fuel k : Nat) (st : DrainSt), DrainInv queries0 snap deliv st →
      st.handles.length = fuel →
      DrainInv queries0 snap deliv (drainGo deliv sched fuel k st) ∧
        (drainGo deliv sched fuel k st).handles = [] := by
  intro fuel
  induction fuel with
  | zero =>
    intro k st inv hlen
    exact ⟨inv, List.length_eq_zero.mp hlen⟩
  | succ n ih =>
    intro k st inv hlen
    have hnef : st.handles.isEmpty = false := by
      cases hh : st.handles with
      | nil => rw [hh] at hlen; simp at hlen
      | cons a as => rfl
    have hunfold : drainGo deliv sched (n + 1) k st =
        drainGo deliv sched n (k + 1) (drainStep deliv (sched k % st.handles.length) st) := by
      rw [show drainGo deliv sched (n + 1) k st = if st.handles.isEmpty then st
        else drainGo deliv sched n (k + 1)
          (drainStep deliv (sched k % st.handles.length) st) from rfl, hnef]
      rfl
    rw [hunfold]
    have hpos : 0 < st.handles.length := by omega
    have hc : sched k % st.handles.length < st.handles.length := Nat.mod_lt _ hpos
    obtain ⟨inv2, hlen2⟩ := drainInv_step queries0 snap deliv hsnap hnodup st inv _ hc
    exact ih (k + 1) _ inv2 (by omega)

/-- Master lemma: after `DrainAll`, the invariant holds and the wait set is
exhausted. -/
theorem drainAll_inv (queries0 : QueryMap) (snap : List Int) (deliv : Int → Delivery)
    (sched : Nat → Nat)
    (hsnap : List.Perm snap (queries0.map Prod.fst))
    (hnodup : (queries0.map Prod.fst).Nodup)
    (hhan : ∀ p ∈ queries0, p.2.han = p.1) :
    DrainInv queries0 snap deliv (DrainAll queries0 snap deliv sched) ∧
      (DrainAll queries0 snap deliv sched).handles = [] := by
  apply drainInv_go queries0 snap deliv sched hsnap hnodup snap.length 0
  · constructor
    · simp
    · intro h _
      rfl
    · intro q hq
      exact absurd hq (List.not_mem_nil q)
    · intro q hq
      exact absurd hq (List.not_mem_nil q)
    · exact hhan
  · rfl

/-! ### Claim theorems -/

/-- Claim C1: for every registry of N query handles at `DrainAll` call time,
`DrainAll` returns exactly N entries, one per distinct registered handle with
no duplicates and no extras, each the finalization of its own registry entry
under its own delivery and hence carrying either its delivered result or a
terminal error — for every snapshot order and every order in which the
underlying completions are selected.  The embedding is a total function, so
`DrainAll` itself raises no error. -/
theorem drainAll_complete (queries0 : QueryMap) (snap : List Int) (deliv : Int → Delivery)
    (sched : Nat → Nat)
    (hsnap : List.Perm snap (queries0.map Prod.fst))
    (hnodup : (queries0.map Prod.fst).Nodup)
    (hhan : ∀ p ∈ queries0, p.2.han = p.1) :
    (DrainAll queries0 snap deliv sched).finished.length = queries0.length ∧
    List.Perm ((DrainAll queries0 snap deliv sched).finished.map VoltQueryResult.han)
      (queries0.map Prod.fst) ∧
    ((DrainAll queries0 snap deliv sched).finished.map VoltQueryResult.han).Nodup ∧
    (∀ q ∈ (DrainAll queries0 snap deliv sched).finished, ∃ q0,
      lookupQuery queries0 q.han = some q0 ∧ q = (finalizeQuery (deliv q.han) q0).1) ∧
    (∀ q ∈ (DrainAll queries0 snap deliv sched).finished,
      (q.err).isSome ∨ (q.rows).isSome) := by
  obtain ⟨inv, hdone⟩ := drainAll_inv queries0 snap deliv sched hsnap hnodup hhan
  have hperm : List.Perm
      ((DrainAll queries0 snap deliv sched).finished.map VoltQueryResult.han) snap := by
    have hp := inv.perm
    rw [hdone] at hp
    simpa using hp
  have hperm2 := hperm.trans hsnap
  refine ⟨?_, hperm2, hperm2.symm.nodup hnodup, inv.fin, ?_⟩
  · have hlen1 : ((DrainAll queries0 snap deliv sched).finished.map
        VoltQueryResult.han).length = (queries0.map Prod.fst).length := hperm2.length_eq
    rw [List.length_map, List.length_map] at hlen1
    exact hlen1
  · intro q hq
    obtain ⟨q0, _, hqeq⟩ := inv.fin q hq
    rw [hqeq]
    exact finalizeQuery_sets_one (deliv q.han) q0

/-- Witness registry for the drain claims: three pending queries with handles
100, 101, 102 (the concrete scenario of the spec). -/
def wQueries : QueryMap :=
  [(100, { han := 100, rows := none, err := none }),
   (101, { han := 101, rows := none, err := none }),
   (102, { han := 102, rows := none, err := none })]

/-- A snapshot order that differs from registration order. -/
def wSnap : List Int := [102, 100, 101]

/-- Deliveries: results for 100 and 101 arrive; 102's channel is closed
without a value. -/
def wDeliv : Int → Delivery := fun h =>
  if h = 100 then .delivered { kindIsInterface := true, rowsPayload := some 1 }
  else if h = 101 then .delivered { kindIsInterface := true, rowsPayload := some 2 }
  else .closed

/-- An arbitrary selection order. -/
def wSched : Nat → Nat := fun k => 2 * k + 1

theorem drainAll_complete_witness :
    (List.Perm wSnap (wQueries.map Prod.fst) ∧ (wQueries.map Prod.fst).Nodup ∧
      ∀ p ∈ wQueries, p.2.han = p.1) ∧
    ((DrainAll wQueries wSnap wDeliv wSched).finished.length = wQueries.length ∧
    List.Perm ((DrainAll wQueries wSnap wDeliv wSched).finished.map VoltQueryResult.han)
      (wQueries.map Prod.fst) ∧
    ((DrainAll wQueries wSnap wDeliv wSched).finished.map VoltQueryResult.han).Nodup ∧
    (∀ q ∈ (DrainAll wQueries wSnap wDeliv wSched).finished, ∃ q0,
      lookupQuery wQueries q.han = some q0 ∧ q = (finalizeQuery (wDeliv q.han) q0).1) ∧
    (∀ q ∈ (DrainAll wQueries wSnap wDeliv wSched).finished,
      (q.err).isSome ∨ (q.rows).isSome)) :=
  ⟨⟨by decide, by decide, by decide⟩,
   drainAll_complete wQueries wSnap wDeliv wSched (by decide) (by decide) (by decide)⟩

/-- Claim C9: `DrainAll` called when zero queries are registered returns the
empty collection at once: the loop body never runs, no `reflect.Select` call
is made (`selections = 0`), no mutator is applied, and the registry stays
empty. -/
theorem drainAll_zero_queries (deliv : Int → Delivery) (sched : Nat → Nat) :
    DrainAll [] [] deliv sched =
      { handles := [], queries := [], finished := [], events := [], selections := 0 } := rfl

/-- Claim C8: every query whose channel is closed without a value ends up in
the output with the non-nil error recorded by the source, and the drain still
finishes the whole snapshot: the wait set is exhausted and every registered
handle was processed. -/
theorem drainAll_closed_channel (queries0 : QueryMap) (snap : List Int)
    (deliv : Int → Delivery) (sched : Nat → Nat)
    (hsnap : List.Perm snap (queries0.map Prod.fst))
    (hnodup : (queries0.map Prod.fst).Nodup)
    (hhan : ∀ p ∈ queries0, p.2.han = p.1) :
    (∀ q ∈ (DrainAll queries0 snap deliv sched).finished,
      deliv q.han = .closed →
        q.err = some "Result was not available, channel was closed") ∧
    (DrainAll queries0 snap deliv sched).handles = [] ∧
    (DrainAll queries0 snap deliv sched).finished.length = queries0.length := by
  obtain ⟨inv, hdone⟩ := drainAll_inv queries0 snap deliv sched hsnap hnodup hhan
  refine ⟨?_, hdone, ?_⟩
  · intro q hq hclosed
    obtain ⟨q0, _, hqeq⟩ := inv.fin q hq
    rw [hqeq, hclosed]
    rfl
  · have hp := inv.perm
    rw [hdone] at hp
    have hp3 : List.Perm ((DrainAll queries0 snap deliv sched).finished.map
        VoltQueryResult.han) snap := by simpa using hp
    have hp2 := hp3.trans hsnap
    have hlen1 := hp2.length_eq
    rw [List.length_map, List.length_map] at hlen1
    exact hlen1

theorem drainAll_closed_channel_witness :
    (List.Perm wSnap (wQueries.map Prod.fst) ∧ (wQueries.map Prod.fst).Nodup ∧
      ∀ p ∈ wQueries, p.2.han = p.1) ∧
    ((∀ q ∈ (DrainAll wQueries wSnap wDeliv wSched).finished,
      wDeliv q.han = .closed →
        q.err = some "Result was not available, channel was closed") ∧
    (DrainAll wQueries wSnap wDeliv wSched).handles = [] ∧
    (DrainAll wQueries wSnap wDeliv wSched).finished.length = wQueries.length) :=
  ⟨⟨by decide, by decide, by decide⟩,
   drainAll_closed_channel wQueries wSnap wDeliv wSched (by decide) (by decide) (by decide)⟩

/-- Claim C6: every handle whose result the drain consumed and finalized is no
longer present in the query registry once the drain is over (the removal is
performed, per the spec, by the consumption path of the pending query). -/
theorem drainAll_removes_consumed (queries0 : QueryMap) (snap : List Int)
    (deliv : Int → Delivery) (sched : Nat → Nat)
    (hsnap : List.Perm snap (queries0.map Prod.fst))
    (hnodup : (queries0.map Prod.fst).Nodup)
    (hhan : ∀ p ∈ queries0, p.2.han = p.1) :
    ∀ q ∈ (DrainAll queries0 snap deliv sched).finished,
      lookupQuery (DrainAll queries0 snap deliv sched).queries q.han = none :=
  fun q hq => (drainAll_inv queries0 snap deliv sched hsnap hnodup hhan).1.gone q hq

theorem drainAll_removes_consumed_witness :
    (List.Perm wSnap (wQueries.map Prod.fst) ∧ (wQueries.map Prod.fst).Nodup ∧
      ∀ p ∈ wQueries, p.2.han = p.1) ∧
    (∀ q ∈ (DrainAll wQueries wSnap wDeliv wSched).finished,
      lookupQuery (DrainAll wQueries wSnap wDeliv wSched).queries q.han = none) :=
  ⟨⟨by decide, by decide, by decide⟩,
   drainAll_removes_consumed wQueries wSnap wDeliv wSched (by decide) (by decide) (by decide)⟩

/-- Claim C4: whenever the value delivered on a query's channel is not a valid
query-result payload — its kind is not `reflect.Interface`, or the
`driver.Rows` type assertion fails — the output entry for that query records a
type-mismatch error and holds no payload: the error field is set and the rows
field is nil. -/
theorem drainAll_mismatch_records_error (queries0 : QueryMap) (snap : List Int)
    (deliv : Int → Delivery) (sched : Nat → Nat)
    (hsnap : List.Perm snap (queries0.map Prod.fst))
    (hnodup : (queries0.map Prod.fst).Nodup)
    (hhan : ∀ p ∈ queries0, p.2.han = p.1)
    (hpending : ∀ p ∈ queries0, p.2.rows = none) :
    ∀ q ∈ (DrainAll queries0 snap deliv sched).finished, ∀ v : SelVal,
      deliv q.han = .delivered v →
      (v.kindIsInterface = false ∨ v.rowsPayload = none) →
      (q.err).isSome ∧ q.rows = none := by
  obtain ⟨inv, _⟩ := drainAll_inv queries0 snap deliv sched hsnap hnodup hhan
  intro q hq v hv hbad
  obtain ⟨q0, hq0, hqeq⟩ := inv.fin q hq
  have hq0pending : q0.rows = none := hpending (q.han, q0) (lookupQuery_mem hq0)
  rw [hqeq, hv]
  by_cases hk : v.kindIsInterface
  · have hpay : v.rowsPayload = none := by
      rcases hbad with hbad | hbad
      · rw [hk] at hbad; cases hbad
      · exact hbad
    simp [finalizeQuery, hk, hpay, VoltQueryResult.setError, VoltQueryResult.setRows]
  · have hk2 : v.kindIsInterface = false := by simpa using hk
    simp [finalizeQuery, hk2, VoltQueryResult.setError, hq0pending]

/-- Deliveries for the C4 witness: 100 gets a value failing the `driver.Rows`
assertion, 101 a value of non-interface kind, 102's channel closes. -/
def wDelivBad : Int → Delivery := fun h =>
  if h = 100 then .delivered { kindIsInterface := true, rowsPayload := none }
  else if h = 101 then .delivered { kindIsInterface := false, rowsPayload := some 5 }
  else .closed

theorem drainAll_mismatch_records_error_witness :
    (List.Perm wSnap (wQueries.map Prod.fst) ∧ (wQueries.map Prod.fst).Nodup ∧
      (∀ p ∈ wQueries, p.2.han = p.1) ∧ ∀ p ∈ wQueries, p.2.rows = none) ∧
    (∀ q ∈ (DrainAll wQueries wSnap wDelivBad wSched).finished, ∀ v : SelVal,
      wDelivBad q.han = .delivered v →
      (v.kindIsInterface = false ∨ v.rowsPayload = none) →
      (q.err).isSome ∧ q.rows = none) :=
  ⟨⟨by decide, by decide, by decide, by decide⟩,
   drainAll_mismatch_records_error wQueries wSnap wDelivBad wSched
     (by decide) (by decide) (by decide) (by decide)⟩

/-- A connection as produced by a successful `OpenConn`: reader and writer are
the TCP connection, login data stored, open. -/
def vcOpen : VoltConn :=
  newVoltConn (some .tcpConn) (some ())
    (some { hostId := 0, connId := 0, leaderAddr := 0, buildString := "" })

/-- The discarded receiver copy after `Close` has run on it. -/
def vcClearedCopy : VoltConn :=
  { reader := none, writer := none, connData := none, isOpen := false }

/-- Claim C2 fails on the code: `Close` has a value receiver, so the nil
assignments to `reader`/`writer`/`connData`/`isOpen` mutate a discarded copy
and the caller's connection is unchanged (first conjunct).  The second call
therefore sees a non-nil reader, invokes `Close` on the already-closed TCP
connection again (its close count reaches 2) and returns Go's double-close
error — not a transport no-op.  Neither call panics, so the "never crashes"
half of the claim does hold on a TCP-backed connection. -/
theorem close_twice_recloses_transport :
    (closeCall vcOpen { closeCalls := 0 }).2 = vcOpen ∧
    (closeCall vcOpen { closeCalls := 0 }).1 =
      .returned none vcClearedCopy { closeCalls := 1 } ∧
    (closeCall vcOpen { closeCalls := 1 }).1 =
      .returned (some "use of closed network connection") vcClearedCopy
        { closeCalls := 2 } :=
  ⟨rfl, rfl, rfl⟩

/-- Claim C3 fails on the code for the after-close half: since `Close`'s value
receiver never clears `isOpen` on the caller's connection, `Prepare` invoked
after `Close` still succeeds and returns a statement instead of the
"Connection is closed" error (first conjunct).  On a connection that is not
open (e.g. the zero value, before any successful open) `Prepare` does fail
with that error and touches nothing (second conjunct). -/
theorem prepare_after_close_not_rejected :
    (closeCall vcOpen { closeCalls := 0 }).2.Prepare "select * from t"
      = .ok { query := "select * from t" } ∧
    VoltConn.Prepare { reader := none, writer := none, connData := none, isOpen := false }
      "select * from t" = .error "Connection is closed" :=
  ⟨rfl, rfl⟩

/-- Claim C5: every failure to resolve, dial, or read the login response makes
`OpenConn` return an error, and a failure to write the login frame does too in
any well-formed environment (the handshake read then fails); in all these
cases no connection value is produced, so nothing ever transitions to Open. -/
theorem openConn_failure_fatal (connInfo : String) (env : OpenEnv)
    (hwf : OpenEnvWf env)
    (hfail : env.resolveOk = false ∨ (env.dialErr).isSome ∨ env.writeOk = false ∨
      readRespOk env.readResp = false) :
    (∃ e, OpenConn connInfo env = .error e) ∧
      ∀ vc, OpenConn connInfo env ≠ .ok vc := by
  have key : ∃ e, OpenConn connInfo env = .error e := by
    unfold OpenConn
    by_cases hres : env.resolveOk = false
    · rw [if_pos hres]
      exact ⟨_, rfl⟩
    · rw [if_neg hres]
      cases hd : env.dialErr with
      | some e => exact ⟨e, rfl⟩
      | none =>
        cases hs : env.serializeErr with
        | some e => exact ⟨e, rfl⟩
        | none =>
          cases hr : env.readResp with
          | error e => exact ⟨e, rfl⟩
          | ok cd =>
            exfalso
            rcases hfail with h | h | h | h
            · exact hres h
            · rw [hd] at h
              simp at h
            · have hro := hwf h
              rw [hr] at hro
              simp [readRespOk] at hro
            · rw [hr] at h
              simp [readRespOk] at h
  obtain ⟨e, he⟩ := key
  refine ⟨⟨e, he⟩, fun vc hcontra => ?_⟩
  rw [he] at hcontra
  cases hcontra

/-- An environment whose address resolution fails. -/
def wEnvFail : OpenEnv :=
  { resolveOk := false, dialErr := none, serializeErr := none, writeOk := true,
    readResp := .ok { hostId := 0, connId := 0, leaderAddr := 0, buildString := "" } }

theorem openConn_failure_fatal_witness :
    (OpenEnvWf wEnvFail ∧ (wEnvFail.resolveOk = false ∨ (wEnvFail.dialErr).isSome ∨
      wEnvFail.writeOk = false ∨ readRespOk wEnvFail.readResp = false)) ∧
    ((∃ e, OpenConn "badhost:21212" wEnvFail = .error e) ∧
      ∀ vc, OpenConn "badhost:21212" wEnvFail ≠ .ok vc) :=
  ⟨⟨by decide, by decide⟩,
   openConn_failure_fatal "badhost:21212" wEnvFail (by decide) (by decide)⟩

/-- Claim C7 fails on the code: when a delivered value fails the `driver.Rows`
type assertion, the missing `else` before `chosenQuery.setRows(rows)` makes
the drain apply two mutations to the chosen query — `setError` followed by
`setRows(nil)` — not exactly one.  Evaluated here on a single registered query
(handle 7) whose channel delivers such a value: the event log of the drain
shows both calls on handle 7, and the finished entry carries the
type-mismatch error with nil rows. -/
theorem drain_mismatch_applies_two_mutations :
    (DrainAll [(7, { han := 7, rows := none, err := none })] [7]
      (fun _ => .delivered { kindIsInterface := true, rowsPayload := none })
      (fun _ => 0)).events =
      [(7, .setErrorEv "unexpected return type, not driver.Rows"),
       (7, .setRowsEv none)] ∧
    (DrainAll [(7, { han := 7, rows := none, err := none })] [7]
      (fun _ => .delivered { kindIsInterface := true, rowsPayload := none })
      (fun _ => 0)).finished =
      [{ han := 7, rows := none, err := some "unexpected return type, not driver.Rows" }] :=
  ⟨rfl, rfl⟩

/-- Claim C10: `Close` downcasts the stored reader to `*net.TCPConn` without
checking; on any connection whose reader is non-nil and not a TCP connection
— and `newVoltConn` accepts any `io.Reader`, including such a one — `Close`
panics, and it panics only in that case: with a TCP reader or a nil reader it
returns normally. -/
theorem close_unchecked_downcast (w : Option Unit) (cd : Option connectionData)
    (vc : VoltConn) (tcp : TcpState) :
    (newVoltConn (some .other) w cd).reader = some .other ∧
    ((newVoltConn (some .other) w cd).Close tcp = .panicked) ∧
    (vc.Close tcp = .panicked ↔ vc.reader = some .other) := by
  refine ⟨rfl, rfl, ?_⟩
  obtain ⟨r, wv, cdv, o⟩ := vc
  cases r with
  | none => simp [VoltConn.Close]
  | some rr =>
    cases rr with
    | tcpConn => simp [VoltConn.Close]
    | other => simp [VoltConn.Close]
